import Mathlib

/-!
Verification of the Redmine e-mail connector (`connect.py`) against its
natural-language specification.

The development shallowly embeds the correlation / synchronization core of
`connect.py`:

* the identity tag codec (the inline `re.search(r'\[Redmine #(\d+)\]', subject)`
  of `email_webhook`, lines 316-321, and the f-string tags built at lines
  196, 242, 285, 331);
* requester extraction (the inline `description.split('\n')` loop of
  `process_redmine_updates` lines 227-232 and `redmine_webhook` lines 276-281);
* the backend helpers `create_redmine_issue`, `update_redmine_issue`,
  `add_comment_to_redmine_issue`, `get_redmine_issue` (lines 60-112);
* the mailbox poll `check_emails` (lines 147-211), the backend activity scan
  `process_redmine_updates` (lines 213-257), and the two Flask handlers
  `redmine_webhook` (lines 261-301) and `email_webhook` (lines 303-346).

External collaborators (the Redmine HTTP client, IMAP, SMTP, Flask) are
modelled by explicit state passing: the backend is a `RState` value, the
mailbox a `List InMessage`, and every outbound call (issue creation, issue
update, mail send, IMAP `\Seen` store) is recorded as an `Event` in the
order the Python code performs it.  Python exceptions swallowed by the
`try/except` blocks become `Option`/`Bool` results.
-/

namespace Connecteur

/-- Seconds since the Unix epoch of `2000-01-01T00:00:00Z`, the wide
historical bound hard-coded in the backend query of
`process_redmine_updates` (line 218). -/
def epoch2000 : Int := 946684800

/-- A `datetime.datetime` as `redminelib` decodes `*_on` attributes to
(falling back to the raw ISO string when parsing fails).  `instant` only
identifies the value; no operation of this program computes with it
successfully — in particular comparing it against an `int` raises.  -/
structure Datetime where
  instant : Int
deriving Repr, DecidableEq

/-- A raised Python exception, as far as the `except` blocks observe one. -/
inductive PyError where
  | typeError
deriving Repr, DecidableEq

/-- The comparison `journal.created_on >= updated_since` of line 239:
`updated_since` is the `int` of line 217 while `created_on` is a
`datetime.datetime` (or raw string), so Python 3 raises `TypeError`
instead of producing a Boolean. -/
def datetimeGeInt (_t : Datetime) (_n : Int) : Except PyError Bool :=
  Except.error PyError.typeError

/-- A Redmine journal entry as read by `process_redmine_updates`.
The code guards both fields with `hasattr` (lines 239-240), so each is an
`Option`: `none` models an absent attribute. -/
structure Journal where
  created_on : Option Datetime
  notes : Option String
deriving Repr, DecidableEq

/-- A Redmine issue as seen through `redminelib`: backend-assigned integer
id, subject, free-text description, journal entries, and the last-update
timestamp used by the `updated_on` filter/sort of line 218. -/
structure Issue where
  id : Nat
  subject : String
  description : String
  journals : List Journal
  updated_on : Int
deriving Repr, DecidableEq

/-- The state of the external Redmine backend.  `nextId` is the id the
backend will assign to the next created issue; `createOk` models whether a
`redmine.issue.create` call succeeds or raises (the `except` path of
`create_redmine_issue`, lines 81-83); `now` is the timestamp the backend
stamps on new rows. -/
structure RState where
  issues : List Issue
  nextId : Nat
  createOk : Bool
  now : Int
deriving Repr, DecidableEq

/-- An unread/read message in the IMAP inbox, already parsed: `check_emails`
reads `Subject`, the sender address and the plain-text body (lines 169-184);
`num` is the IMAP sequence number used by `mail.store` (line 193). -/
structure InMessage where
  num : Nat
  subject : String
  fromAddr : String
  body : String
  seen : Bool
deriving Repr, DecidableEq

/-- Trace of outbound calls made by the core, in program order:
`createIssue` is a successful `redmine.issue.create`, `updateIssue` a
successful `redmine.issue.update(id, notes=...)`, `sendEmail` a
`send_email` call, `markSeen` the IMAP `store(num, '+FLAGS', '\Seen')`. -/
inductive Event where
  | createIssue (subject description : String) (project_id : Nat)
  | updateIssue (issue_id : Nat) (notes : String)
  | sendEmail (to_email subject body : String)
  | markSeen (num : Nat)
deriving Repr, DecidableEq

/-! ## Identity tag codec

`email_webhook` scans the subject with `re.search(r'\[Redmine #(\d+)\]',
subject)` (line 317).  `re.search` returns the leftmost match; at a given
position the pattern matches exactly when the literal `[Redmine #` is
followed by a maximal non-empty digit run followed by `]` (the greedy
`\d+` cannot backtrack successfully, since a shorter run would leave a
digit where `]` is required). -/

/-- The literal part `[Redmine #` of the tag pattern. -/
def tagLit : List Char := "[Redmine #".data

/-- Split a character list into its maximal leading digit run and the rest
(the semantics of greedy `\d*` at a position). -/
def takeDigits : List Char → List Char × List Char
  | [] => ([], [])
  | c :: cs =>
    if c.isDigit then
      let p := takeDigits cs
      (c :: p.1, p.2)
    else ([], c :: cs)

/-- Numeric value of a decimal digit string, as Python `int()` computes it
on the captured group. -/
def digitsToNat (ds : List Char) : Nat :=
  ds.foldl (fun acc c => acc * 10 + (c.toNat - 48)) 0

/-- Does the regex `\[Redmine #(\d+)\]` match at the head of `cs`?  Returns
the captured integer if so. -/
def matchTagAt (cs : List Char) : Option Nat :=
  if tagLit.isPrefixOf cs then
    let p := takeDigits (cs.drop tagLit.length)
    if p.1 ≠ [] ∧ p.2.head? = some ']' then some (digitsToNat p.1) else none
  else none

/-- Leftmost-match scan of `re.search`: try each position left to right. -/
def decodeList : List Char → Option Nat
  | [] => none
  | c :: cs =>
    match matchTagAt (c :: cs) with
    | some n => some n
    | none => decodeList cs

/-- `decode(subjectLine)`: the correlation-tag decoder applied by
`email_webhook` (lines 316-321). -/
def decodeSubject (s : String) : Option Nat :=
  decodeList s.data

/-- `encode(ticketId)`: the tag embedded in every outbound subject
(f-strings at lines 196, 242, 285, 331 all start with `[Redmine #{id}]`). -/
def encodeTag (id : Nat) : String :=
  "[Redmine #" ++ toString id ++ "]"

/-! ## Requester extraction

`process_redmine_updates` (lines 227-232) and `redmine_webhook`
(lines 276-281) both run the same inline loop:
`for line in description.split('\n'): if line.startswith("De:"):
requester_email = line.replace("De:", "").strip(); break`. -/

/-- The literal prefix `De:` tested by `line.startswith("De:")`. -/
def dePrefix : List Char := "De:".data

/-- Python `description.split('\n')`: split at every newline, keeping empty
pieces. -/
def splitLines : List Char → List (List Char)
  | [] => [[]]
  | c :: cs =>
    if c = '\n' then [] :: splitLines cs
    else
      match splitLines cs with
      | [] => [[c]]
      | l :: ls => (c :: l) :: ls

/-- Python `line.replace("De:", "")`: remove every non-overlapping
occurrence of the three-character pattern `De:`, scanning left to right. -/
def replaceAllDe : List Char → List Char
  | 'D' :: 'e' :: ':' :: rest => replaceAllDe rest
  | c :: cs => c :: replaceAllDe cs
  | [] => []

/-- The ASCII whitespace stripped by Python `str.strip()`. -/
def isPySpace (c : Char) : Bool :=
  c = ' ' || c = '\t' || c = '\n' || c = '\r' || c = '\x0b' || c = '\x0c'

/-- Python `s.strip()` restricted to ASCII whitespace. -/
def pyStrip (cs : List Char) : List Char :=
  ((cs.dropWhile isPySpace).reverse.dropWhile isPySpace).reverse

/-- `extract(description)`: the requester-address recovery loop shared by
`process_redmine_updates` (lines 227-232) and `redmine_webhook`
(lines 276-281): first line starting with `De:`, with every `De:` removed
and the result stripped. -/
def extract_requester_email (description : String) : Option String :=
  match (splitLines description.data).find? (fun line => dePrefix.isPrefixOf line) with
  | some line => some (String.mk (pyStrip (replaceAllDe line)))
  | none => none

/-! ## Backend helpers (lines 60-112)

Each helper returns its Python result, the new backend state and the trace
of successful outbound calls.  The generic `except Exception` branches
(network errors and the like) are modelled by `createOk` for creation; the
`ResourceNotFoundError` branch of `update_redmine_issue` / `get_redmine_issue`
is the lookup failing. -/

/-- `create_redmine_issue(subject, description, project_id)` (lines 60-83).
Both call sites pass only these three arguments, so the optional
tracker/status/priority/assignee classifiers are omitted.  On the exception
path (modelled by `createOk = false`) it logs and returns `None`. -/
def create_redmine_issue (st : RState) (subject description : String) (project_id : Nat) :
    Option Issue × RState × List Event :=
  if st.createOk then
    let issue : Issue := ⟨st.nextId, subject, description, [], st.now⟩
    (some issue,
     { st with issues := st.issues ++ [issue], nextId := st.nextId + 1 },
     [Event.createIssue subject description project_id])
  else
    (none, st, [])

/-- `get_redmine_issue(issue_id)` (lines 103-112): fetch by id, `None` when
the backend reports the issue as not found. -/
def get_redmine_issue (st : RState) (issue_id : Nat) : Option Issue :=
  st.issues.find? (fun i => i.id == issue_id)

/-- `update_redmine_issue(issue_id, notes=...)` (lines 85-97): first
`redmine.issue.get(issue_id)` — `ResourceNotFoundError` makes the function
log and return `False` before any update call — then
`redmine.issue.update(issue_id, notes=...)`, which appends a journal entry
stamped with the backend clock. -/
def update_redmine_issue (st : RState) (issue_id : Nat) (notes : String) :
    Bool × RState × List Event :=
  match st.issues.find? (fun i => i.id == issue_id) with
  | none => (false, st, [])
  | some _ =>
    (true,
     { st with issues := st.issues.map (fun i =>
         if i.id == issue_id then
           { i with journals := i.journals ++ [⟨some ⟨st.now⟩, some notes⟩],
                    updated_on := st.now }
         else i) },
     [Event.updateIssue issue_id notes])

/-- `add_comment_to_redmine_issue(issue_id, comment)` (lines 99-101). -/
def add_comment_to_redmine_issue (st : RState) (issue_id : Nat) (comment : String) :
    Bool × RState × List Event :=
  update_redmine_issue st issue_id comment

/-- `send_email(to_email, subject, body)` (lines 116-145): hands one message
to SMTP; the core ignores its Boolean result everywhere it calls it. -/
def send_email (to_email subject body : String) : Bool × List Event :=
  (true, [Event.sendEmail to_email subject body])

/-! ## Outbound message texts (the f-strings of `connect.py`) -/

/-- Line 196 and line 331: `[Redmine #{issue.id}] Votre demande a été
enregistrée`. -/
def confirmation_subject (id : Nat) : String :=
  "[Redmine #" ++ toString id ++ "] Votre demande a été enregistrée"

/-- The confirmation body of lines 197-205 and 332-340 (identical
triple-quoted f-string, including its surrounding newlines and the 16
trailing spaces of the closing line). -/
def confirmation_body (id : Nat) : String :=
  "\nBonjour,\n\nVotre demande a été enregistrée dans notre système avec le numéro de ticket #"
    ++ toString id
    ++ ".\nVous pouvez suivre l\x27évolution de votre demande en répondant à cet e-mail.\n\nCordialement,\nL\x27équipe support\n                "

/-- Line 242 and line 285: `[Redmine #{issue.id}] Mise à jour:
{issue.subject}`. -/
def notification_subject (id : Nat) (subject : String) : String :=
  "[Redmine #" ++ toString id ++ "] Mise à jour: " ++ subject

/-- The poll-side notification body of lines 243-254 (with the journal
notes interpolated and 24 trailing spaces on the closing line). -/
def poll_notification_body (id : Nat) (notes : String) : String :=
  "\nBonjour,\n\nUne mise à jour a été effectuée sur votre ticket #"
    ++ toString id
    ++ ":\n\n"
    ++ notes
    ++ "\n\nVous pouvez répondre à cet e-mail pour ajouter un commentaire au ticket.\n\nCordialement,\nL\x27équipe support\n                        "

/-- The webhook-side notification body of lines 286-295 (no journal notes,
20 trailing spaces on the closing line). -/
def webhook_notification_body (id : Nat) : String :=
  "\nBonjour,\n\nUne mise à jour a été effectuée sur votre ticket #"
    ++ toString id
    ++ ".\n\nVous pouvez répondre à cet e-mail pour ajouter un commentaire au ticket.\n\nCordialement,\nL\x27équipe support\n                    "

/-- The description built for a new ticket: `f"De: {from_email}\n\n{body}"`
(line 187 and line 325). -/
def ticket_description (from_email body : String) : String :=
  "De: " ++ from_email ++ "\n\n" ++ body

/-- The comment text of line 322:
`f"Commentaire par e-mail de {from_email}:\n\n{body}"`. -/
def comment_text (from_email body : String) : String :=
  "Commentaire par e-mail de " ++ from_email ++ ":\n\n" ++ body

/-! ## Backend activity scan: `process_redmine_updates` (lines 213-257) -/

/-- The backend query of line 218:
`redmine.issue.filter(updated_on=">=2000-01-01T00:00:00Z",
sort="updated_on:desc", limit=100)` — issues updated since the wide
historical bound, most recently updated first, at most 100 rows.
The backend promises some descending order by `updated_on`; a stable
insertion sort models it. -/
def issueFilter (issues : List Issue) : List Issue :=
  ((issues.filter (fun i => decide (epoch2000 ≤ i.updated_on))).insertionSort
    (fun a b => b.updated_on ≤ a.updated_on)).take 100

/-- The journal loop of lines 238-255 for one fetched issue detail,
returning the notifications sent before the loop finished or raised,
together with the exception if one was raised.  For each entry:
`hasattr(journal, 'created_on')` failing skips it; otherwise the
comparison of line 239 runs — and raises `TypeError` (see `datetimeGeInt`),
so the notes check and the send of lines 240-255 are unreachable; they are
nevertheless translated as written.  The notification subject/body use the
id and subject of the filter row (the loop variable `issue`); journals and
description come from the refetched detail. -/
def journalLoop (updated_since : Int) (issue : Issue) (requester_email : String) :
    List Journal → List Event × Option PyError
  | [] => ([], none)
  | j :: js =>
    match j.created_on with
    | none => journalLoop updated_since issue requester_email js
    | some t =>
      match datetimeGeInt t updated_since with
      | Except.error e => ([], some e)
      | Except.ok b =>
        if b then
          match j.notes with
          | none => journalLoop updated_since issue requester_email js
          | some notes =>
            if notes ≠ "" then
              let rest := journalLoop updated_since issue requester_email js
              (Event.sendEmail requester_email
                (notification_subject issue.id issue.subject)
                (poll_notification_body issue.id notes) :: rest.1, rest.2)
            else journalLoop updated_since issue requester_email js
        else journalLoop updated_since issue requester_email js

/-- Lines 226-255 for one filter row: recover the requester from the
detail description (skipping the issue entirely when there is none) and
run the journal loop. -/
def issueUpdateEvents (updated_since : Int) (issue detail : Issue) :
    List Event × Option PyError :=
  match extract_requester_email detail.description with
  | none => ([], none)
  | some requester_email =>
    journalLoop updated_since issue requester_email detail.journals

/-- The issue loop of lines 220-255: refetch each filter row
(`get_redmine_issue`, skipping the row when that returns `None`) and run
the per-issue scan; an exception raised inside the loop propagates,
keeping the notifications already sent. -/
def scanIssues (st : RState) (updated_since : Int) : List Issue → List Event × Option PyError
  | [] => ([], none)
  | issue :: rest =>
    match get_redmine_issue st issue.id with
    | none => scanIssues st updated_since rest
    | some detail =>
      let r := issueUpdateEvents updated_since issue detail
      match r.2 with
      | some e => (r.1, some e)
      | none =>
        let r2 := scanIssues st updated_since rest
        (r.1 ++ r2.1, r2.2)

/-- `process_redmine_updates()` (lines 213-257).  The Python code computes
`updated_since = int(time.time()) - (EMAIL_CHECK_INTERVAL * 60)` from the
wall clock (line 217); that value is taken here as the `updated_since`
parameter.  The whole body sits in a `try` whose `except` (line 256) logs
the exception and returns, so a raised `TypeError` ends the pass quietly
with whatever had been sent so far.  The scan writes nothing: it returns
the state it was given together with the e-mails sent. -/
def process_redmine_updates (st : RState) (updated_since : Int) : RState × List Event :=
  (st, (scanIssues st updated_since (issueFilter st.issues)).1)

/-! ## Mailbox poll: `check_emails` (lines 147-211) -/

/-- Mark every message with IMAP sequence number `num` as seen
(`mail.store(num, '+FLAGS', '\Seen')`, line 193). -/
def markSeenInBox (mbox : List InMessage) (num : Nat) : List InMessage :=
  mbox.map (fun m => if m.num == num then { m with seen := true } else m)

/-- The per-message body of the `for num in data[0].split()` loop
(lines 160-206): build the `De:`-tagged description, create the ticket, and
only when creation succeeded mark the message seen and send the
confirmation e-mail. -/
def processMessage (project_id : Nat) (acc : RState × List InMessage × List Event)
    (m : InMessage) : RState × List InMessage × List Event :=
  let st := acc.1
  let mbox := acc.2.1
  let evs := acc.2.2
  let description := ticket_description m.fromAddr m.body
  let r := create_redmine_issue st m.subject description project_id
  match r.1 with
  | some issue =>
    let mbox1 := markSeenInBox mbox m.num
    let sent := send_email m.fromAddr (confirmation_subject issue.id) (confirmation_body issue.id)
    (r.2.1, mbox1, evs ++ r.2.2 ++ [Event.markSeen m.num] ++ sent.2)
  | none =>
    (r.2.1, mbox, evs ++ r.2.2)

/-- `check_emails()` (lines 147-211): fetch the unread messages
(`mail.search(None, 'UNSEEN')`) and run the per-message loop over them.
MIME parsing (lines 166-184) is collaborator work: messages arrive with
subject, sender address and plain-text body already extracted. -/
def check_emails (st : RState) (mbox : List InMessage) (project_id : Nat) :
    RState × List InMessage × List Event :=
  (mbox.filter (fun m => !m.seen)).foldl (processMessage project_id) (st, mbox, [])

/-! ## Flask handlers (lines 261-346)

A request body is `none` when `request.json` is `None` (JSON `null`), or
`some fields` for a JSON object, given as an association list.  Each handler
returns the HTTP status code it responds with (200 on the success JSON, 400
or 500 on the error JSON), the new backend state, and the outbound-call
trace. -/

/-- A JSON value, as far as `redmine_webhook` inspects one.  Numbers are
restricted to the non-negative integers used as issue ids. -/
inductive Json where
  | jnull
  | jstr (s : String)
  | jnum (n : Nat)
  | jobj (fields : List (String × Json))
deriving Repr

/-- `redmine_webhook()` (`POST /webhook/redmine`, lines 261-301).
`if not data` rejects a `null` or empty body with 400.  When `'issue'` is
in the data, `data['issue']['id']` raises (500 via the `except` block) when
`data['issue']` is not an object or has no `'id'` key; a non-integer id
makes the `redminelib` fetch raise inside `get_redmine_issue`, which
swallows the error and returns `None`.  A missing `'issue'` key skips the
whole block and still answers 200. -/
def redmine_webhook (st : RState) (data : Option (List (String × Json))) :
    Nat × RState × List Event :=
  match data with
  | none => (400, st, [])
  | some fields =>
    if fields.isEmpty then (400, st, [])
    else
      match fields.lookup "issue" with
      | none => (200, st, [])
      | some issueJson =>
        match issueJson with
        | Json.jobj ifields =>
          (match ifields.lookup "id" with
           | none => (500, st, [])
           | some idJson =>
             match idJson with
             | Json.jnum issue_id =>
               (match get_redmine_issue st issue_id with
                | none => (200, st, [])
                | some issue =>
                  match extract_requester_email issue.description with
                  | none => (200, st, [])
                  | some requester_email =>
                    (200, st,
                     (send_email requester_email
                       (notification_subject issue.id issue.subject)
                       (webhook_notification_body issue.id)).2))
             | _ => (200, st, []))
        | _ => (500, st, [])

/-- `email_webhook()` (`POST /webhook/email`, lines 303-346).  Field values
are taken as strings, the only case the handler is specified for.  A `null`
body or a body missing any of `from`, `subject`, `body` (in particular the
empty object) is rejected with 400 before any outbound call.  A subject
carrying a correlation tag goes to `add_comment_to_redmine_issue` (whose
Boolean result is ignored); otherwise a ticket is created and, only when
creation succeeded, a confirmation e-mail is sent. -/
def email_webhook (st : RState) (project_id : Nat)
    (data : Option (List (String × String))) : Nat × RState × List Event :=
  match data with
  | none => (400, st, [])
  | some fields =>
    match fields.lookup "from", fields.lookup "subject", fields.lookup "body" with
    | some from_email, some subject, some body =>
      (match decodeSubject subject with
       | some ticket_id =>
         let r := add_comment_to_redmine_issue st ticket_id (comment_text from_email body)
         (200, r.2.1, r.2.2)
       | none =>
         let r := create_redmine_issue st subject (ticket_description from_email body) project_id
         match r.1 with
         | some issue =>
           let sent := send_email from_email (confirmation_subject issue.id) (confirmation_body issue.id)
           (200, r.2.1, r.2.2 ++ sent.2)
         | none => (200, r.2.1, r.2.2))
    | _, _, _ => (400, st, [])

/-! ## Concrete states used by counterexamples and witnesses -/

/-- An empty backend: no issues, next id 10, creation succeeding. -/
def st0 : RState := ⟨[], 10, true, 5000⟩

/-- An issue whose description carries the `De:` requester header and which
has one journal entry created at instant 1000 with non-empty notes. -/
def issue1 : Issue := ⟨3, "subj", "De: a@b.com\nx", [⟨some ⟨1000⟩, some "hi"⟩], 1000000000⟩

/-- A backend holding exactly `issue1`. -/
def st1 : RState := ⟨[issue1], 4, true, 5000⟩

/-! ## C7 -/

/-- C7: two invocations of the backend activity scan with the same
watermark and the same backend state yield the same emitted tuples; the
scan returns the backend state unchanged (it mutates nothing), so running
it again from the state the first run returned reproduces the first
output exactly.  (Both runs in fact emit the same empty set: every pass
aborts at the datetime-vs-int comparison of line 239 — see
`scan_never_emits` — but the determinism and absence of hidden mutation
are exactly what the embedding with explicit state threading shows.) -/
theorem process_redmine_updates_idempotent (st : RState) (updated_since : Int) :
    (process_redmine_updates st updated_since).1 = st ∧
    process_redmine_updates (process_redmine_updates st updated_since).1 updated_since
      = process_redmine_updates st updated_since :=
  ⟨rfl, rfl⟩

/-! ## C1 -/

/-- C1 is false on the code: with an empty backend and an inbound message
whose subject carries the tag `[Redmine #7]`, `email_webhook` decodes the
tag, `add_comment_to_redmine_issue` fails with not-found, and the handler
answers 200 having created no ticket, sent no mail, and left the backend
untouched — the message is silently dropped, not treated as untagged. -/
theorem email_webhook_dangling_tag_counterexample :
    decodeSubject "[Redmine #7] help" = some 7 ∧
    get_redmine_issue st0 7 = none ∧
    st0.createOk = true ∧
    email_webhook st0 1
      (some [("from", "a@b.com"), ("subject", "[Redmine #7] help"), ("body", "x")])
      = (200, st0, []) :=
  ⟨rfl, rfl, rfl, rfl⟩

/-- C1 (amended): when the subject decodes to a ticket id the backend
reports as not found, the comment-add fails and the handler performs no
backend mutation and no mail send at all — in particular it does not fall
back to creating a new ticket — and still answers 200. -/
theorem email_webhook_dangling_tag (st : RState) (project_id : Nat)
    (fields : List (String × String)) (from_email subject body : String) (tid : Nat)
    (hf : fields.lookup "from" = some from_email)
    (hs : fields.lookup "subject" = some subject)
    (hb : fields.lookup "body" = some body)
    (hdec : decodeSubject subject = some tid)
    (hnone : get_redmine_issue st tid = none) :
    email_webhook st project_id (some fields) = (200, st, []) := by
  unfold get_redmine_issue at hnone
  simp [email_webhook, hf, hs, hb, hdec, add_comment_to_redmine_issue,
    update_redmine_issue, hnone]

/-- Witness for `email_webhook_dangling_tag` at a concrete input. -/
theorem email_webhook_dangling_tag_witness :
    email_webhook st0 1
      (some [("from", "a@b.com"), ("subject", "[Redmine #7] help"), ("body", "x")])
      = (200, st0, []) :=
  email_webhook_dangling_tag st0 1 _ "a@b.com" "[Redmine #7] help" "x" 7
    rfl rfl rfl rfl rfl

/-! ## C8 -/

/-- C8 is false on the code for `/webhook/redmine`: a non-empty malformed
body without an `issue` key is answered 200, and a body whose `issue`
object lacks an `id` raises and is answered 500 — neither is the 400 the
claim requires. -/
theorem webhook_malformed_counterexample :
    redmine_webhook st0 (some [("foo", Json.jnum 1)]) = (200, st0, []) ∧
    redmine_webhook st0 (some [("issue", Json.jobj [])]) = (500, st0, []) :=
  ⟨rfl, rfl⟩

/-- C8 (amended): for `/webhook/email` the claim holds: a `null` body or a
body missing any of `from`, `subject`, `body` (the empty object included)
is answered 400 with no backend mutation and no mail send.  For
`/webhook/redmine` only a `null` or empty body is answered 400; a
non-empty body without an `issue` key is answered 200 (still with no
backend or mail calls). -/
theorem webhook_malformed_amended :
    (∀ st project_id, email_webhook st project_id none = (400, st, [])) ∧
    (∀ st project_id (fields : List (String × String)),
      (fields.lookup "from" = none ∨ fields.lookup "subject" = none ∨
        fields.lookup "body" = none) →
      email_webhook st project_id (some fields) = (400, st, [])) ∧
    (∀ st, redmine_webhook st none = (400, st, [])) ∧
    (∀ st, redmine_webhook st (some []) = (400, st, [])) ∧
    (∀ st (fields : List (String × Json)), fields ≠ [] →
      fields.lookup "issue" = none →
      redmine_webhook st (some fields) = (200, st, [])) := by
  refine ⟨fun st project_id => rfl, fun st project_id fields h => ?_,
    fun st => rfl, fun st => rfl, fun st fields hne hlk => ?_⟩
  · rcases hf : fields.lookup "from" with _ | vf
    · simp only [email_webhook]
      rw [hf]
    · rcases hs : fields.lookup "subject" with _ | vs
      · simp only [email_webhook]
        rw [hf, hs]
      · rcases hb : fields.lookup "body" with _ | vb
        · simp only [email_webhook]
          rw [hf, hs, hb]
        · rw [hf, hs, hb] at h
          rcases h with h | h | h <;> cases h
  · cases fields with
    | nil => exact absurd rfl hne
    | cons f fs => simp [redmine_webhook, hlk]

/-- Witness for `webhook_malformed_amended` at concrete inputs. -/
theorem webhook_malformed_amended_witness :
    email_webhook st0 1 (some [("from", "a@b.com")]) = (400, st0, []) ∧
    redmine_webhook st0 (some [("foo", Json.jnum 1)]) = (200, st0, []) :=
  ⟨webhook_malformed_amended.2.1 st0 1 _ (Or.inr (Or.inl rfl)),
   webhook_malformed_amended.2.2.2.2 st0 _ (List.cons_ne_nil _ _) rfl⟩

/-! ## C4 -/

/-- C4: for a well-formed inbound message on the mail-relay webhook:
with no correlation tag in the subject (and the backend accepting the
creation), exactly one ticket is created, its description is
`De: <sender>` + blank line + body, and exactly one confirmation e-mail
goes to the sender with a subject that starts with the tag
`[Redmine #<newId>]`; with a tag resolving to an existing ticket, exactly
one comment is appended — its text opens with a line naming the sender
address (`Commentaire par e-mail de <sender>:`) — and no e-mail is sent. -/
theorem email_webhook_actions (st : RState) (project_id : Nat)
    (fields : List (String × String)) (from_email subject body : String)
    (hf : fields.lookup "from" = some from_email)
    (hs : fields.lookup "subject" = some subject)
    (hb : fields.lookup "body" = some body) :
    (decodeSubject subject = none → st.createOk = true →
      email_webhook st project_id (some fields) =
        (200,
         { st with
             issues := st.issues ++
               [⟨st.nextId, subject, ticket_description from_email body, [], st.now⟩],
             nextId := st.nextId + 1 },
         [Event.createIssue subject (ticket_description from_email body) project_id,
          Event.sendEmail from_email (confirmation_subject st.nextId)
            (confirmation_body st.nextId)]) ∧
      confirmation_subject st.nextId
        = encodeTag st.nextId ++ " Votre demande a été enregistrée") ∧
    (∀ tid, decodeSubject subject = some tid → (get_redmine_issue st tid).isSome →
      email_webhook st project_id (some fields) =
        (200, (update_redmine_issue st tid (comment_text from_email body)).2.1,
         [Event.updateIssue tid (comment_text from_email body)])) := by
  constructor
  · intro hdec hOk
    constructor
    · simp only [email_webhook]
      rw [hf, hs, hb]
      simp [hdec, create_redmine_issue, hOk, send_email]
    · show "[Redmine #" ++ (toString st.nextId ++ "] Votre demande a été enregistrée")
          = ("[Redmine #" ++ (toString st.nextId ++ "]")) ++ " Votre demande a été enregistrée"
      rw [String.append_assoc, String.append_assoc,
        show ("]" : String) ++ " Votre demande a été enregistrée"
          = "] Votre demande a été enregistrée" from rfl]
  · intro tid hdec hsome
    obtain ⟨d, hd⟩ := Option.isSome_iff_exists.mp hsome
    unfold get_redmine_issue at hd
    simp only [email_webhook]
    rw [hf, hs, hb]
    simp [hdec, add_comment_to_redmine_issue, update_redmine_issue, hd]

/-- Witness for `email_webhook_actions`: both branches at concrete inputs. -/
theorem email_webhook_actions_witness :
    email_webhook st0 1
      (some [("from", "a@b.com"), ("subject", "Need help"), ("body", "it\x27s broken")]) =
      (200,
       { st0 with
           issues := st0.issues ++
             [⟨st0.nextId, "Need help", ticket_description "a@b.com" "it\x27s broken", [], st0.now⟩],
           nextId := st0.nextId + 1 },
       [Event.createIssue "Need help" (ticket_description "a@b.com" "it\x27s broken") 1,
        Event.sendEmail "a@b.com" (confirmation_subject st0.nextId)
          (confirmation_body st0.nextId)]) ∧
    email_webhook st1 1
      (some [("from", "a@b.com"), ("subject", "[Redmine #3] thanks"), ("body", "merci")]) =
      (200, (update_redmine_issue st1 3 (comment_text "a@b.com" "merci")).2.1,
       [Event.updateIssue 3 (comment_text "a@b.com" "merci")]) :=
  ⟨((email_webhook_actions st0 1
      [("from", "a@b.com"), ("subject", "Need help"), ("body", "it\x27s broken")]
      "a@b.com" "Need help" "it\x27s broken" rfl rfl rfl).1 rfl rfl).1,
   (email_webhook_actions st1 1
      [("from", "a@b.com"), ("subject", "[Redmine #3] thanks"), ("body", "merci")]
      "a@b.com" "[Redmine #3] thanks" "merci" rfl rfl rfl).2 3 rfl rfl⟩

/-! ## C6 -/

/-- Splitting on newlines distributes over an appended newline when the
first segment contains none. -/
theorem splitLines_append_newline (a b : List Char) (ha : ∀ c ∈ a, c ≠ '\n') :
    splitLines (a ++ '\n' :: b) = a :: splitLines b := by
  induction a with
  | nil =>
    simp [splitLines]
  | cons c cs ih =>
    have hc : c ≠ '\n' := ha c (by simp)
    have ih' := ih (fun x hx => ha x (by simp [hx]))
    rw [List.cons_append, splitLines]
    simp only [hc, if_false, ih']

/-- C6: a description of the form `De: x@example.com` + newline + anything
extracts exactly `x@example.com`; a description none of whose lines starts
with `De:` extracts nothing. -/
theorem requester_extraction_contract :
    (∀ rest : String,
      extract_requester_email ("De: x@example.com\n" ++ rest) = some "x@example.com") ∧
    (∀ d : String, (∀ line ∈ splitLines d.data, dePrefix.isPrefixOf line = false) →
      extract_requester_email d = none) := by
  constructor
  · intro rest
    have hdata : ("De: x@example.com\n" ++ rest).data
        = "De: x@example.com".data ++ '\n' :: rest.data := by
      rw [String.data_append]
      show ("De: x@example.com".data ++ ['\n']) ++ rest.data = _
      rw [List.append_assoc]
      rfl
    unfold extract_requester_email
    rw [hdata, splitLines_append_newline _ _ (by decide),
      List.find?_cons_of_pos _ (by decide)]
    decide
  · intro d h
    unfold extract_requester_email
    rw [List.find?_eq_none.mpr (fun line hl => by rw [h line hl]; exact Bool.false_ne_true)]

/-- Witness for `requester_extraction_contract` at concrete inputs. -/
theorem requester_extraction_contract_witness :
    extract_requester_email ("De: x@example.com\n" ++ "it broke\nbadly") = some "x@example.com" ∧
    extract_requester_email "hello\nworld" = none :=
  ⟨requester_extraction_contract.1 "it broke\nbadly",
   requester_extraction_contract.2 "hello\nworld" (by decide)⟩

/-! ## C3 and C9: the activity scan never emits

The comparison of line 239 raises `TypeError` (datetime vs int), so any
journal entry that reaches it aborts the pass; entries without a
`created_on` attribute are skipped before the comparison.  Either way no
send is ever reached: a scan pass emits nothing. -/

/-- The journal loop sends nothing: the first entry carrying a
`created_on` raises before the send, and entries without one are
skipped. -/
theorem journalLoop_sends_nothing (updated_since : Int) (issue : Issue)
    (requester_email : String) (js : List Journal) :
    (journalLoop updated_since issue requester_email js).1 = [] := by
  induction js with
  | nil => rfl
  | cons j js ih =>
    cases hco : j.created_on <;>
      simp [journalLoop, hco, datetimeGeInt, ih]

/-- The per-issue scan sends nothing. -/
theorem issueUpdateEvents_sends_nothing (updated_since : Int) (issue detail : Issue) :
    (issueUpdateEvents updated_since issue detail).1 = [] := by
  unfold issueUpdateEvents
  cases h : extract_requester_email detail.description <;>
    simp [h, journalLoop_sends_nothing]

/-- The issue loop sends nothing. -/
theorem scanIssues_sends_nothing (st : RState) (updated_since : Int)
    (issues : List Issue) :
    (scanIssues st updated_since issues).1 = [] := by
  induction issues with
  | nil => rfl
  | cons issue rest ih =>
    cases hd : get_redmine_issue st issue.id with
    | none => simp [scanIssues, hd, ih]
    | some detail =>
      cases he : (issueUpdateEvents updated_since issue detail).2 <;>
        simp [scanIssues, hd, he, ih, issueUpdateEvents_sends_nothing]

/-- C3: for every watermark W, the backend activity scan emits a
notification tuple for a journal entry only if its creation timestamp is
strictly after W and its notes are non-empty — in particular never for an
entry at or before W.  The code satisfies this vacuously: the comparison
`journal.created_on >= updated_since` (line 239) pits a redminelib
datetime (or raw string) against the int of line 217 and raises
`TypeError`, which the `except` of line 256 turns into an aborted pass, so
a scan pass never emits any tuple at all, for any entry and any
watermark. -/
theorem scan_never_emits (st : RState) (updated_since : Int) :
    (process_redmine_updates st updated_since).2 = [] :=
  scanIssues_sends_nothing st updated_since (issueFilter st.issues)

/-- C9: the backend query of a scan pass (line 218) returns at most 100
rows — only issues of the backend state passing the `updated_on` bound,
pairwise in descending update order — and journal activity on any ticket
outside those rows is never emitted in the pass.  The last part holds a
fortiori: no pass emits anything at all, since the scan aborts at the
first datetime-vs-int comparison (lines 239/256). -/
theorem scan_examines_at_most_100 (st : RState) (updated_since : Int) :
    (issueFilter st.issues).length ≤ 100 ∧
    (issueFilter st.issues).Pairwise (fun a b => b.updated_on ≤ a.updated_on) ∧
    (∀ i ∈ issueFilter st.issues, i ∈ st.issues ∧ epoch2000 ≤ i.updated_on) ∧
    (process_redmine_updates st updated_since).2 = [] := by
  refine ⟨?_, ?_, ?_, scanIssues_sends_nothing st updated_since _⟩
  · unfold issueFilter
    rw [List.length_take]
    exact min_le_left _ _
  · unfold issueFilter
    haveI : IsTotal Issue (fun a b => b.updated_on ≤ a.updated_on) :=
      ⟨fun a b => le_total b.updated_on a.updated_on⟩
    haveI : IsTrans Issue (fun a b => b.updated_on ≤ a.updated_on) :=
      ⟨fun _ _ _ hab hbc => le_trans hbc hab⟩
    have hs := List.sorted_insertionSort (fun a b : Issue => b.updated_on ≤ a.updated_on)
      (st.issues.filter (fun i => decide (epoch2000 ≤ i.updated_on)))
    exact hs.sublist (List.take_sublist 100 _)
  · intro i hi
    unfold issueFilter at hi
    have h1 := (List.take_sublist 100 _).subset hi
    have h2 := (List.perm_insertionSort
      (fun a b : Issue => b.updated_on ≤ a.updated_on)
      (st.issues.filter (fun i => decide (epoch2000 ≤ i.updated_on)))).subset h1
    have h3 := List.mem_filter.mp h2
    exact ⟨h3.1, by simpa using h3.2⟩

/-- Witness for `scan_examines_at_most_100` at a concrete state. -/
theorem scan_examines_at_most_100_witness :
    (issueFilter st1.issues).length ≤ 100 ∧
    (issue1 ∈ st1.issues ∧ epoch2000 ≤ issue1.updated_on) ∧
    (process_redmine_updates st1 1000).2 = [] :=
  ⟨(scan_examines_at_most_100 st1 1000).1,
   (scan_examines_at_most_100 st1 1000).2.2.1 issue1 (List.Mem.head _),
   (scan_examines_at_most_100 st1 1000).2.2.2⟩

/-! ## C2 and C10: structure of the mailbox-poll fold -/

/-- One poll step leaves `createOk` unchanged. -/
theorem processMessage_createOk (project_id : Nat)
    (acc : RState × List InMessage × List Event) (m : InMessage) :
    (processMessage project_id acc m).1.createOk = acc.1.createOk := by
  obtain ⟨st, mbox, evs⟩ := acc
  cases hOk : st.createOk <;>
    simp [processMessage, create_redmine_issue, hOk]

/-- One poll step only appends to the event trace, and the appended events
are creations, seen-marks and confirmation mails — never comment-adds. -/
theorem processMessage_events_shape (project_id : Nat)
    (acc : RState × List InMessage × List Event) (m : InMessage) :
    ∃ δ, (processMessage project_id acc m).2.2 = acc.2.2 ++ δ ∧
      ∀ issue_id notes, Event.updateIssue issue_id notes ∉ δ := by
  obtain ⟨st, mbox, evs⟩ := acc
  cases hOk : st.createOk
  · exact ⟨[], by simp [processMessage, create_redmine_issue, hOk], by simp⟩
  · refine ⟨[Event.createIssue m.subject (ticket_description m.fromAddr m.body) project_id,
      Event.markSeen m.num,
      Event.sendEmail m.fromAddr (confirmation_subject st.nextId)
        (confirmation_body st.nextId)], ?_, ?_⟩
    · simp [processMessage, create_redmine_issue, hOk, send_email]
    · intro issue_id notes hmem
      simp at hmem

/-- The whole poll fold only appends to the event trace. -/
theorem foldl_processMessage_events_prefix (project_id : Nat) (msgs : List InMessage)
    (acc : RState × List InMessage × List Event) :
    ∃ δ, (msgs.foldl (processMessage project_id) acc).2.2 = acc.2.2 ++ δ := by
  induction msgs generalizing acc with
  | nil => exact ⟨[], by simp⟩
  | cons m ms ih =>
    obtain ⟨δ1, h1, _⟩ := processMessage_events_shape project_id acc m
    obtain ⟨δ2, h2⟩ := ih (processMessage project_id acc m)
    exact ⟨δ1 ++ δ2, by rw [List.foldl_cons, h2, h1, List.append_assoc]⟩

/-- The poll fold never records a comment-add. -/
theorem foldl_processMessage_no_update (project_id : Nat) (msgs : List InMessage)
    (acc : RState × List InMessage × List Event)
    (h : ∀ issue_id notes, Event.updateIssue issue_id notes ∉ acc.2.2) :
    ∀ issue_id notes,
      Event.updateIssue issue_id notes ∉ (msgs.foldl (processMessage project_id) acc).2.2 := by
  induction msgs generalizing acc with
  | nil => exact h
  | cons m ms ih =>
    rw [List.foldl_cons]
    apply ih
    obtain ⟨δ, hδ, hall⟩ := processMessage_events_shape project_id acc m
    intro issue_id notes hmem
    rw [hδ] at hmem
    rcases List.mem_append.mp hmem with h1 | h2
    · exact h issue_id notes h1
    · exact hall issue_id notes h2

/-- With creation failing, the poll fold is inert: state, mailbox and
events are all left untouched. -/
theorem foldl_processMessage_createFail (project_id : Nat) (msgs : List InMessage)
    (st : RState) (mbox : List InMessage) (evs : List Event)
    (h : st.createOk = false) :
    msgs.foldl (processMessage project_id) (st, mbox, evs) = (st, mbox, evs) := by
  induction msgs with
  | nil => rfl
  | cons m ms ih =>
    rw [List.foldl_cons,
      show processMessage project_id (st, mbox, evs) m = (st, mbox, evs) from by
        simp [processMessage, create_redmine_issue, h],
      ih]

/-- With creation succeeding, every message of the batch gets its ticket
creation, its seen-mark and its confirmation mail recorded. -/
theorem foldl_processMessage_mem (project_id : Nat) (msgs : List InMessage)
    (acc : RState × List InMessage × List Event) (hOk : acc.1.createOk = true)
    (m : InMessage) (hm : m ∈ msgs) :
    Event.markSeen m.num ∈ (msgs.foldl (processMessage project_id) acc).2.2 ∧
    Event.createIssue m.subject (ticket_description m.fromAddr m.body) project_id
      ∈ (msgs.foldl (processMessage project_id) acc).2.2 ∧
    ∃ subj body, Event.sendEmail m.fromAddr subj body
      ∈ (msgs.foldl (processMessage project_id) acc).2.2 := by
  induction msgs generalizing acc with
  | nil => cases hm
  | cons m0 ms ih =>
    rw [List.foldl_cons]
    rcases List.mem_cons.mp hm with rfl | hm'
    · obtain ⟨δ2, hδ2⟩ := foldl_processMessage_events_prefix project_id ms
        (processMessage project_id acc m)
      rw [hδ2]
      obtain ⟨st, mbox, evs⟩ := acc
      have hOk' : st.createOk = true := hOk
      have hstep : (processMessage project_id (st, mbox, evs) m).2.2
          = evs ++ [Event.createIssue m.subject (ticket_description m.fromAddr m.body) project_id,
              Event.markSeen m.num,
              Event.sendEmail m.fromAddr (confirmation_subject st.nextId)
                (confirmation_body st.nextId)] := by
        simp [processMessage, create_redmine_issue, hOk', send_email]
      rw [hstep]
      refine ⟨?_, ?_, confirmation_subject st.nextId, confirmation_body st.nextId, ?_⟩ <;>
        simp
    · exact ih (processMessage project_id acc m0)
        (by rw [processMessage_createOk]; exact hOk) hm'

/-- C2 is false on the code: the mailbox poll does not decode correlation
tags.  For an unread reply whose subject is `[Redmine #3] thanks` while
ticket 3 exists, the poll creates a brand-new ticket (and confirms it by
mail) instead of appending a comment to ticket 3 as the webhook path
would. -/
theorem mailbox_poll_counterexample :
    decodeSubject "[Redmine #3] thanks" = some 3 ∧
    (get_redmine_issue st1 3).isSome = true ∧
    (check_emails st1 [⟨1, "[Redmine #3] thanks", "a@b.com", "merci", false⟩] 1).2.2 =
      [Event.createIssue "[Redmine #3] thanks" (ticket_description "a@b.com" "merci") 1,
       Event.markSeen 1,
       Event.sendEmail "a@b.com" (confirmation_subject 4) (confirmation_body 4)] :=
  ⟨rfl, rfl, rfl⟩

/-- C2 (amended): the inbound mailbox poll does not run the correlation
resolver: it never appends a comment, and (when the backend accepts
creations) it creates one new ticket per unread message — even for a
message whose subject carries a valid tag of an existing ticket — so its
processing is not identical to the mail-relay webhook path. -/
theorem mailbox_poll_always_creates (st : RState) (mbox : List InMessage)
    (project_id : Nat) :
    (∀ issue_id notes,
      Event.updateIssue issue_id notes ∉ (check_emails st mbox project_id).2.2) ∧
    (st.createOk = true → ∀ m ∈ mbox, m.seen = false →
      Event.createIssue m.subject (ticket_description m.fromAddr m.body) project_id
        ∈ (check_emails st mbox project_id).2.2) := by
  constructor
  · exact foldl_processMessage_no_update project_id _ _ (by simp)
  · intro hOk m hm hseen
    exact (foldl_processMessage_mem project_id _ (st, mbox, []) hOk m
      (List.mem_filter.mpr ⟨hm, by simp [hseen]⟩)).2.1

/-- Witness for `mailbox_poll_always_creates` at a concrete input. -/
theorem mailbox_poll_always_creates_witness :
    Event.updateIssue 3 "x"
      ∉ (check_emails st1 [⟨1, "[Redmine #3] thanks", "a@b.com", "merci", false⟩] 1).2.2 ∧
    Event.createIssue "[Redmine #3] thanks" (ticket_description "a@b.com" "merci") 1
      ∈ (check_emails st1 [⟨1, "[Redmine #3] thanks", "a@b.com", "merci", false⟩] 1).2.2 :=
  ⟨(mailbox_poll_always_creates st1 _ 1).1 3 "x",
   (mailbox_poll_always_creates st1 _ 1).2 rfl ⟨1, "[Redmine #3] thanks", "a@b.com", "merci", false⟩
     (List.Mem.head _) rfl⟩

/-- C10: during the mailbox poll, an unread message is marked seen iff its
ticket creation succeeded, and a confirmation e-mail is dispatched to its
sender iff its ticket creation succeeded; when creation fails the mailbox
is left untouched, so the message stays unread for the next poll. -/
theorem poll_marks_seen_iff_created (st : RState) (mbox : List InMessage)
    (project_id : Nat) (m : InMessage) (hm : m ∈ mbox) (hseen : m.seen = false) :
    ((Event.markSeen m.num ∈ (check_emails st mbox project_id).2.2) ↔
      st.createOk = true) ∧
    ((∃ subj body, Event.sendEmail m.fromAddr subj body
        ∈ (check_emails st mbox project_id).2.2) ↔ st.createOk = true) ∧
    (st.createOk = false → (check_emails st mbox project_id).2.1 = mbox) := by
  have hmf : m ∈ mbox.filter (fun m => !m.seen) :=
    List.mem_filter.mpr ⟨hm, by simp [hseen]⟩
  cases hOk : st.createOk
  · have hfail := foldl_processMessage_createFail project_id
      (mbox.filter (fun m => !m.seen)) st mbox [] hOk
    unfold check_emails
    rw [hfail]
    refine ⟨?_, ?_, fun _ => rfl⟩
    · simp
    · simp
  · have hmem := foldl_processMessage_mem project_id _ (st, mbox, []) hOk m hmf
    exact ⟨⟨fun _ => rfl, fun _ => hmem.1⟩,
      ⟨fun _ => rfl, fun _ => hmem.2.2⟩,
      fun hc => Bool.noConfusion hc⟩

/-- Witness for `poll_marks_seen_iff_created` at a concrete input. -/
theorem poll_marks_seen_iff_created_witness :
    ((Event.markSeen 1
        ∈ (check_emails st1 [⟨1, "[Redmine #3] thanks", "a@b.com", "merci", false⟩] 1).2.2) ↔
      st1.createOk = true) ∧
    (st1.createOk = false →
      (check_emails st1 [⟨1, "[Redmine #3] thanks", "a@b.com", "merci", false⟩] 1).2.1 =
        [⟨1, "[Redmine #3] thanks", "a@b.com", "merci", false⟩]) :=
  ⟨(poll_marks_seen_iff_created st1 _ 1 ⟨1, "[Redmine #3] thanks", "a@b.com", "merci", false⟩
      (List.Mem.head _) rfl).1,
   (poll_marks_seen_iff_created st1 _ 1 ⟨1, "[Redmine #3] thanks", "a@b.com", "merci", false⟩
      (List.Mem.head _) rfl).2.2⟩

/-! ## C5: the tag codec round-trips

`encodeTag` interpolates `toString id`, i.e. `Nat.repr id`.  The lemmas
below connect `Nat.repr` to a structural digit list `natChars`, show that
the greedy digit run of the regex recovers exactly those digits, and that
scanning left to right past a tag-free prefix lands on the embedded tag. -/

/-- The decimal digit characters of `n`, most significant first —
the characters `Nat.repr n` consists of. -/
def natChars (n : Nat) : List Char :=
  if _h : n < 10 then [Nat.digitChar n]
  else natChars (n / 10) ++ [Nat.digitChar (n % 10)]
decreasing_by
  exact Nat.div_lt_self (by omega) (by omega)

theorem digitChar_isDigit {k : Nat} (h : k < 10) : (Nat.digitChar k).isDigit = true := by
  interval_cases k <;> decide

theorem digitChar_toNat {k : Nat} (h : k < 10) : (Nat.digitChar k).toNat - 48 = k := by
  interval_cases k <;> decide

theorem natChars_ne_nil (n : Nat) : natChars n ≠ [] := by
  rw [natChars]
  split <;> simp

theorem natChars_digits (n : Nat) : ∀ c ∈ natChars n, c.isDigit = true := by
  induction n using Nat.strong_induction_on with
  | _ n ih =>
    rw [natChars]
    split
    next h =>
      intro c hc
      rw [List.mem_singleton] at hc
      subst hc
      exact digitChar_isDigit h
    next h =>
      intro c hc
      rcases List.mem_append.mp hc with h1 | h2
      · exact ih (n / 10) (Nat.div_lt_self (by omega) (by omega)) c h1
      · rw [List.mem_singleton] at h2
        subst h2
        exact digitChar_isDigit (Nat.mod_lt _ (by omega))

theorem digitsToNat_append_last (xs : List Char) (c : Char) :
    digitsToNat (xs ++ [c]) = digitsToNat xs * 10 + (c.toNat - 48) := by
  unfold digitsToNat
  rw [List.foldl_append]
  rfl

theorem digitsToNat_natChars (n : Nat) : digitsToNat (natChars n) = n := by
  induction n using Nat.strong_induction_on with
  | _ n ih =>
    rw [natChars]
    split
    next h =>
      show digitsToNat ([] ++ [Nat.digitChar n]) = n
      rw [digitsToNat_append_last]
      simp [digitsToNat, digitChar_toNat h]
    next h =>
      rw [digitsToNat_append_last, ih (n / 10) (Nat.div_lt_self (by omega) (by omega)),
        digitChar_toNat (Nat.mod_lt _ (by omega))]
      omega

/-- `Nat.toDigitsCore` with enough fuel computes `natChars`. -/
theorem toDigitsCore_eq_natChars (fuel : Nat) :
    ∀ (n : Nat) (ds : List Char), n < fuel →
      Nat.toDigitsCore 10 fuel n ds = natChars n ++ ds := by
  induction fuel with
  | zero => intro n ds h; omega
  | succ fuel ih =>
    intro n ds h
    simp only [Nat.toDigitsCore]
    by_cases h0 : n / 10 = 0
    · have hn : n < 10 := by omega
      rw [if_pos h0, natChars, dif_pos hn, Nat.mod_eq_of_lt hn]
      rfl
    · have h10 : 10 ≤ n := by
        rcases Nat.lt_or_ge n 10 with hlt | hge
        · exact absurd (Nat.div_eq_of_lt hlt) h0
        · exact hge
      have hdiv : n / 10 < fuel := by
        have hlt := Nat.div_lt_self (show 0 < n by omega) (show 1 < 10 by omega)
        omega
      rw [if_neg h0, ih (n / 10) (Nat.digitChar (n % 10) :: ds) hdiv]
      conv_rhs => rw [natChars]
      rw [dif_neg (by omega)]
      simp

/-- The character data of `Nat.repr`. -/
theorem repr_data (n : Nat) : (Nat.repr n).data = natChars n := by
  show ((Nat.toDigits 10 n).asString).data = natChars n
  rw [Nat.toDigits, toDigitsCore_eq_natChars (n + 1) n [] (Nat.lt_succ_self n)]
  simp [List.asString]

/-- The character data of an encoded tag. -/
theorem encodeTag_data (id : Nat) :
    (encodeTag id).data = tagLit ++ (natChars id ++ [']']) := by
  unfold encodeTag
  rw [String.data_append, String.data_append,
    show (toString id).data = natChars id from repr_data id]
  rfl

theorem takeDigits_append_eq (v : List Char) :
    (takeDigits v).1 ++ (takeDigits v).2 = v := by
  induction v with
  | nil => rfl
  | cons c cs ih =>
    by_cases hc : c.isDigit
    · simp [takeDigits, hc, ih]
    · simp [takeDigits, hc]

theorem takeDigits_fst_digits (v : List Char) :
    ∀ c ∈ (takeDigits v).1, c.isDigit = true := by
  induction v with
  | nil => intro c hc; cases hc
  | cons c0 cs ih =>
    by_cases hc : c0.isDigit
    · intro c hc2
      simp only [takeDigits, hc, if_true] at hc2
      rcases List.mem_cons.mp hc2 with rfl | hmem
      · exact hc
      · exact ih c hmem
    · intro c hc2
      simp only [takeDigits, hc, if_false] at hc2
      cases hc2

theorem takeDigits_snd_not_digit (v : List Char) (c : Char) (r : List Char)
    (h : (takeDigits v).2 = c :: r) : c.isDigit = false := by
  induction v with
  | nil => cases h
  | cons c0 cs ih =>
    by_cases hc : c0.isDigit
    · simp only [takeDigits, hc, if_true] at h
      exact ih h
    · simp only [takeDigits, hc, if_false] at h
      rw [← (List.cons.injEq .. ).mp h |>.1]
      exact Bool.eq_false_iff.mpr hc

theorem takeDigits_digits_append (ds r : List Char)
    (hds : ∀ c ∈ ds, c.isDigit = true) :
    takeDigits (ds ++ r) = (ds ++ (takeDigits r).1, (takeDigits r).2) := by
  induction ds with
  | nil => rfl
  | cons c cs ih =>
    have hc : c.isDigit = true := hds c (List.mem_cons_self c cs)
    simp [takeDigits, hc, ih (fun x hx => hds x (List.mem_cons_of_mem c hx))]

theorem takeDigits_not_digit (c : Char) (cs : List Char) (h : c.isDigit = false) :
    takeDigits (c :: cs) = ([], c :: cs) := by
  simp [takeDigits, h]

/-- The regex matches at the start of an embedded tag and captures the id. -/
theorem matchTagAt_at_tag (id : Nat) (s : List Char) :
    matchTagAt (tagLit ++ (natChars id ++ ']' :: s)) = some id := by
  have hpre : tagLit.isPrefixOf (tagLit ++ (natChars id ++ ']' :: s)) = true := by
    rw [List.isPrefixOf_iff_prefix]
    exact List.prefix_append _ _
  simp only [matchTagAt, hpre, if_true, List.drop_left]
  rw [show natChars id ++ ']' :: s = natChars id ++ (']' :: s) from rfl,
    takeDigits_digits_append _ _ (natChars_digits id),
    takeDigits_not_digit ']' s (by decide)]
  rw [if_pos ⟨by simpa using natChars_ne_nil id, rfl⟩]
  rw [List.append_nil, digitsToNat_natChars]

theorem prefix_or_prefix {a u T : List Char} (h : a <+: u ++ T) :
    a <+: u ∨ u <+: a := by
  induction a generalizing u with
  | nil => exact Or.inl (List.nil_prefix)
  | cons x a' ih =>
    cases u with
    | nil => exact Or.inr (List.nil_prefix)
    | cons y u' =>
      rw [List.cons_append, List.cons_prefix_cons] at h
      obtain ⟨rfl, h'⟩ := h
      rcases ih h' with h1 | h1
      · exact Or.inl (List.cons_prefix_cons.mpr ⟨rfl, h1⟩)
      · exact Or.inr (List.cons_prefix_cons.mpr ⟨rfl, h1⟩)

/-- A position where the regex does not match keeps not matching when the
tag block is appended after the subject: no match can straddle the
boundary. -/
theorem matchTagAt_append_tag_none {u : List Char} (id : Nat) (s : List Char)
    (hne : u ≠ []) (hu : matchTagAt u = none) :
    matchTagAt (u ++ (tagLit ++ (natChars id ++ ']' :: s))) = none := by
  have hThead : tagLit ++ (natChars id ++ ']' :: s)
      = '[' :: ("Redmine #".data ++ (natChars id ++ ']' :: s)) := rfl
  by_cases hp : tagLit.isPrefixOf u
  · obtain ⟨v, rfl⟩ := List.isPrefixOf_iff_prefix.mp hp
    simp only [matchTagAt, hp, if_true, List.drop_left] at hu
    by_cases hcond : (takeDigits v).1 ≠ [] ∧ (takeDigits v).2.head? = some ']'
    · rw [if_pos hcond] at hu
      exact Option.noConfusion hu
    · have hpre2 : tagLit.isPrefixOf
          (tagLit ++ (v ++ (tagLit ++ (natChars id ++ ']' :: s)))) = true := by
        rw [List.isPrefixOf_iff_prefix]
        exact List.prefix_append _ _
      rw [show (tagLit ++ v) ++ (tagLit ++ (natChars id ++ ']' :: s))
          = tagLit ++ (v ++ (tagLit ++ (natChars id ++ ']' :: s))) from
        List.append_assoc _ _ _]
      simp only [matchTagAt, hpre2, if_true, List.drop_left]
      rcases hr : (takeDigits v).2 with _ | ⟨c, r'⟩
      · have hveq : (takeDigits v).1 = v := by
          have h0 := takeDigits_append_eq v
          rw [hr, List.append_nil] at h0
          exact h0
        rw [takeDigits_digits_append v _
            (fun x hx => takeDigits_fst_digits v x (by rw [hveq]; exact hx)),
          hThead, takeDigits_not_digit '[' _ (by decide)]
        rw [if_neg (show ¬ _ from fun hcontra => by
          have h3 : ('[' : Char) = ']' := by simpa using hcontra.2
          exact absurd h3 (by decide))]
      · have hcd : c.isDigit = false := takeDigits_snd_not_digit v c r' hr
        rw [show v ++ (tagLit ++ (natChars id ++ ']' :: s))
            = (takeDigits v).1 ++ (c :: (r' ++ (tagLit ++ (natChars id ++ ']' :: s)))) from by
          conv_lhs => rw [← takeDigits_append_eq v, hr]
          simp]
        rw [takeDigits_digits_append _ _ (takeDigits_fst_digits v),
          takeDigits_not_digit c _ hcd]
        rw [if_neg (show ¬ _ from fun hcontra =>
          hcond ⟨by simpa using hcontra.1, by rw [hr]; simpa using hcontra.2⟩)]
  · have hnp : ¬ (tagLit.isPrefixOf (u ++ (tagLit ++ (natChars id ++ ']' :: s))) = true) := by
      rw [List.isPrefixOf_iff_prefix]
      intro hcontra
      rcases prefix_or_prefix hcontra with h1 | h1
      · exact hp (by rw [List.isPrefixOf_iff_prefix]; exact h1)
      · obtain ⟨w, hw⟩ := h1
        have hwdrop : w = tagLit.drop u.length := by
          rw [← hw, List.drop_left]
        have hlen : u.length + w.length = 10 := by
          have h2 := congrArg List.length hw
          simpa using h2
        have hne10 : u.length ≠ 10 := by
          intro heq
          have hw0 : w = [] := List.length_eq_zero.mp (by omega)
          rw [hw0, List.append_nil] at hw
          exact hp (by rw [List.isPrefixOf_iff_prefix, hw])
        have hpos : 0 < u.length := List.length_pos.mpr hne
        have hcontra2 : u ++ w <+: u ++ (tagLit ++ (natChars id ++ ']' :: s)) := by
          rw [hw]
          exact hcontra
        have hwT : w <+: tagLit ++ (natChars id ++ ']' :: s) :=
          (List.prefix_append_right_inj u).mp hcontra2
        rw [hThead, hwdrop] at hwT
        have htag : tagLit = ['[', 'R', 'e', 'd', 'm', 'i', 'n', 'e', ' ', '#'] := rfl
        have hub : u.length ≤ 9 := by omega
        obtain ⟨k, hk⟩ : ∃ k, u.length = k := ⟨u.length, rfl⟩
        rw [hk] at hwT hpos hub
        interval_cases k <;>
          · rw [htag] at hwT
            simp only [List.drop_succ_cons, List.drop_zero] at hwT
            rw [List.cons_prefix_cons] at hwT
            exact absurd hwT.1 (by decide)
    simp only [matchTagAt, if_neg hnp]

/-- Scanning left to right over a tag-free prefix, the decoder lands on the
embedded tag and captures its id, whatever follows it. -/
theorem decodeList_append_tag (id : Nat) (s : List Char) :
    ∀ p : List Char, decodeList p = none →
      decodeList (p ++ (tagLit ++ (natChars id ++ ']' :: s))) = some id := by
  intro p
  induction p with
  | nil =>
    intro _
    have hT : tagLit ++ (natChars id ++ ']' :: s)
        = '[' :: ("Redmine #".data ++ (natChars id ++ ']' :: s)) := rfl
    rw [List.nil_append, hT, decodeList, ← hT, matchTagAt_at_tag]
  | cons c p' ih =>
    intro hp
    rw [decodeList] at hp
    cases hm : matchTagAt (c :: p') with
    | some n =>
      rw [hm] at hp
      simp at hp
    | none =>
      rw [hm] at hp
      simp only at hp
      rw [List.cons_append, decodeList]
      have hnone : matchTagAt (c :: (p' ++ (tagLit ++ (natChars id ++ ']' :: s)))) = none := by
        have h2 := matchTagAt_append_tag_none (u := c :: p') id s (List.cons_ne_nil c p') hm
        rw [List.cons_append] at h2
        exact h2
      rw [hnone]
      exact ih hp

/-- C5: embedding `encode(id) = [Redmine #<id>]` after any tag-free prefix
and before an arbitrary suffix, decoding returns exactly `id`: the
round-trip holds, decoding a tag-free subject is the normal `none` result
(the hypothesis), and since the suffix may itself contain further tags,
the first occurrence wins. -/
theorem tag_codec_roundtrip (id : Nat) (pre suf : String)
    (hpre : decodeSubject pre = none) :
    decodeSubject (pre ++ encodeTag id ++ suf) = some id := by
  unfold decodeSubject at hpre ⊢
  have hdata : (pre ++ encodeTag id ++ suf).data
      = pre.data ++ (tagLit ++ (natChars id ++ ']' :: suf.data)) := by
    simp [String.data_append, encodeTag_data, List.append_assoc]
  rw [hdata]
  exact decodeList_append_tag id suf.data pre.data hpre

/-- Witness for `tag_codec_roundtrip`: the tag of id 42 embedded mid-subject
wins over a later tag. -/
theorem tag_codec_roundtrip_witness :
    decodeSubject ("Re: " ++ encodeTag 42 ++ " [Redmine #7] thanks") = some 42 :=
  tag_codec_roundtrip 42 "Re: " " [Redmine #7] thanks" rfl

end Connecteur
